import Mathlib

/-!
# Tubonge chat server — verification of the presence / broadcast core

Shallow embedding of the socket-handling core of `server.js`
(src/unnamed/part_000, the current revision) and of the client's
`newMessage` handler (src/frontend/src/utils/socket.js), with theorems
about the presence registry, the authentication middleware, the
message-intake path and the roster announcements.

The `activeUsers` registry is a JavaScript `Map`, modelled as an
insertion-ordered association list: `Map.set` on an existing key replaces
the value in place (keeping the entry's position), otherwise appends;
`Map.delete` removes the entry; `Array.from(map.values())` lists values in
insertion order.  External collaborators (jwt.verify, the Mongo store) are
abstract parameters, as the spec treats them.
-/

namespace Tubonge

/-- The authenticated identity decoded from the JWT (`socket.user`). -/
structure Identity where
  id : String
  username : String
deriving DecidableEq, Repr

/-- The value stored in `activeUsers` for one connection
(server.js lines 146-150): the object literal
`{ id: socket.user.id, username: socket.user.username, socketId: socket.id }`. -/
structure ActiveUser where
  id : String
  username : String
  socketId : String
deriving DecidableEq, Repr

/-- A JavaScript `Map` with string keys: an insertion-ordered association
list with no duplicate keys (the no-duplicate part is proved, not assumed). -/
abbrev JsMap (α : Type) := List (String × α)

/-- `Map.set`: replace in place when the key is present, append otherwise. -/
def mapSet {α : Type} : JsMap α → String → α → JsMap α
  | [], k, v => [(k, v)]
  | (k', v') :: rest, k, v =>
    if k' = k then (k', v) :: rest else (k', v') :: mapSet rest k v

/-- `Map.delete`: remove the entry for the key, if any. -/
def mapDelete {α : Type} : JsMap α → String → JsMap α
  | [], _ => []
  | (k', v') :: rest, k =>
    if k' = k then rest else (k', v') :: mapDelete rest k

/-- The keys, in insertion order. -/
def mapKeys {α : Type} (m : JsMap α) : List String := m.map Prod.fst

/-- `Array.from(map.values())`: the values, in insertion order. -/
def mapValues {α : Type} (m : JsMap α) : List α := m.map Prod.snd

/-- `Map.get`. -/
def mapGet {α : Type} (m : JsMap α) (k : String) : Option α :=
  (m.find? (fun p => p.1 == k)).map Prod.snd

/-- One registry mutation of the connection lifecycle:
`activeUsers.set(socket.user.id, {...})` on connection (line 146) or
`activeUsers.delete(socket.user.id)` on disconnect (line 194). -/
inductive RegOp where
  | register (id username socketId : String)
  | unregister (id : String)
deriving DecidableEq, Repr

/-- Apply one registry mutation to the `activeUsers` map. -/
def applyOp (m : JsMap ActiveUser) : RegOp → JsMap ActiveUser
  | .register i u s => mapSet m i ⟨i, u, s⟩
  | .unregister i => mapDelete m i

/-- Run a sequence of register/unregister operations from the empty
registry (`const activeUsers = new Map()`, line 125). -/
def runOps (ops : List RegOp) : JsMap ActiveUser :=
  ops.foldl applyOp []

/-! ## Wire surface: targets and events -/

/-- A populated message as broadcast by `io.emit('newMessage', ...)` after
`Message.findById(message._id).populate('sender', 'username')`
(server.js lines 172-175). -/
structure PopulatedMessage where
  _id : String
  senderId : String
  senderUsername : String
  content : String
  timestamp : Nat
deriving DecidableEq, Repr

/-- Who an emission is addressed to: `socket.emit` (one session),
`socket.broadcast.emit` (every session but the sender's), `io.emit` (all). -/
inductive Target where
  | toSocket (socketId : String)
  | broadcastFrom (socketId : String)
  | toAll
deriving DecidableEq, Repr

/-- The events the server emits on the socket surface. -/
inductive Event where
  | activeUsers (roster : List ActiveUser)
  | newMessage (msg : PopulatedMessage)
  | errorMsg (message : String)
  | userTyping (username : String)
  | userStopTyping (username : String)
deriving DecidableEq, Repr

/-- The socket ids a target's emission is delivered to, given the socket
ids of the currently active sessions. -/
def deliversTo (sessions : List String) : Target → List String
  | .toSocket s => sessions.filter (fun x => x == s)
  | .broadcastFrom s => sessions.filter (fun x => !(x == s))
  | .toAll => sessions

/-! ## Identity Verifier: the auth middleware (server.js lines 128-141) -/

inductive AuthError where
  | MissingCredential
  | InvalidCredential
deriving DecidableEq, Repr

/-- The socket.io handshake: `socket.handshake.auth.token` may be absent. -/
structure Handshake where
  token : Option String
deriving DecidableEq, Repr

/-- JavaScript truthiness of the `if (!token)` test at line 131: an absent
token and the empty string are both falsy. -/
def tokenPresent : Option String → Bool
  | none => false
  | some s => !(s == "")

/-- The `io.use` middleware: no token rejects with the missing-credential
error; `jwt.verify` (the external credential check, abstracted as `verify`,
returning `none` on any decode/signature/expiry failure) throwing rejects
with the invalid-credential error; otherwise `socket.user = decoded`. -/
def authMiddleware (verify : String → Option Identity) (h : Handshake) :
    Except AuthError Identity :=
  match h.token with
  | none => .error .MissingCredential
  | some t =>
    if t = "" then .error .MissingCredential
    else
      match verify t with
      | none => .error .InvalidCredential
      | some u => .ok u

/-! ## Connection admission (server.js lines 143-159) -/

/-- The `io.on('connection')` prefix: insert into `activeUsers`, then
`socket.emit('activeUsers', Array.from(activeUsers.values()))` to the new
session and `socket.broadcast.emit('activeUsers', ...)` to all others. -/
def onConnection (user : Identity) (socketId : String) (m : JsMap ActiveUser) :
    JsMap ActiveUser × List (Target × Event) :=
  let m' := mapSet m user.id ⟨user.id, user.username, socketId⟩
  (m', [(Target.toSocket socketId, Event.activeUsers (mapValues m')),
        (Target.broadcastFrom socketId, Event.activeUsers (mapValues m'))])

deriving instance DecidableEq for Except

/-- What one connection attempt leaves behind: the middleware's verdict,
the registry afterwards, and the emissions made. -/
structure ConnResult where
  outcome : Except AuthError Identity
  registry : JsMap ActiveUser
  emits : List (Target × Event)
deriving DecidableEq, Repr

/-- A full connection attempt: the middleware runs first; only on success
does socket.io fire the `connection` handler, so on failure the registry is
untouched and nothing is emitted. -/
def handleConnection (verify : String → Option Identity) (h : Handshake)
    (socketId : String) (m : JsMap ActiveUser) : ConnResult :=
  match authMiddleware verify h with
  | .error e => { outcome := .error e, registry := m, emits := [] }
  | .ok u =>
    let r := onConnection u socketId m
    { outcome := .ok u, registry := r.1, emits := r.2 }

/-! ## Message Intake Pipeline (server.js lines 162-180)

The `sendMessage` handler builds `new Message({ sender: socket.user.id,
content: data.content, timestamp: new Date() })`, awaits `message.save()`,
reads it back populated, and broadcasts it with `io.emit('newMessage', ...)`;
any rejection lands in the `catch`, which emits
`socket.emit('error', { message: 'Failed to send message' })` to the
sender only.  The Mongo collaborators are abstracted by the flags
`storageOk` (the durable write succeeds) and `readbackOk` (the populate
read-back succeeds) and by `usernameOf` (the sender's stored username). -/

inductive SendError where
  | InvalidContent
  | StorageFailure
deriving DecidableEq, Repr

/-- A record in the message store. -/
structure StoredMessage where
  _id : String
  sender : String
  content : String
  timestamp : Nat
deriving DecidableEq, Repr

/-- Modelled from the spec: the content validation of the Message schema
(`models/Message.js`, required at server.js line 122 but not among the
given source files) — reject empty or whitespace-only content (every
character whitespace, which includes the empty string) and content
exceeding 1000 code units; `String.length` stands in for the JS
code-unit count.  The schema validator runs inside `save()` before any
record is written. -/
def validContent (content : String) : Bool :=
  !(content.data.all Char.isWhitespace) && decide (content.length ≤ 1000)

/-- `message.save()`: schema validation first (no write on failure), then
the durable write, which appends one record with the store-assigned id. -/
def messageSave (storageOk : Bool) (newId : String) (st : List StoredMessage)
    (sender content : String) (ts : Nat) :
    Except SendError (List StoredMessage × StoredMessage) :=
  if validContent content then
    if storageOk then
      let r : StoredMessage := ⟨newId, sender, content, ts⟩
      .ok (st ++ [r], r)
    else .error .StorageFailure
  else .error .InvalidContent

/-- The client payload of a `sendMessage` event.  The handler reads only
`data.content`; a client-supplied `sender` field is carried here to state
that it has no influence. -/
structure MsgPayload where
  content : String
  sender : Option String
deriving DecidableEq, Repr

/-- What one `sendMessage` handling leaves behind: the store afterwards,
the emissions, and the failure cause when the `catch` ran (`none` on the
success path).  The handler is a total function: every failure is caught,
which models that the process does not crash. -/
structure SendResult where
  store : List StoredMessage
  emits : List (Target × Event)
  failure : Option SendError
deriving DecidableEq, Repr

/-- The `socket.on('sendMessage')` handler. -/
def handleSendMessage (storageOk readbackOk : Bool) (newId : String)
    (usernameOf : String → String) (user : Identity) (socketId : String)
    (st : List StoredMessage) (data : MsgPayload) (ts : Nat) : SendResult :=
  match messageSave storageOk newId st user.id data.content ts with
  | .error e =>
    { store := st,
      emits := [(Target.toSocket socketId, Event.errorMsg "Failed to send message")],
      failure := some e }
  | .ok (st', r) =>
    if readbackOk then
      { store := st',
        emits := [(Target.toAll, Event.newMessage
          ⟨r._id, r.sender, usernameOf r.sender, r.content, r.timestamp⟩)],
        failure := none }
    else
      { store := st',
        emits := [(Target.toSocket socketId, Event.errorMsg "Failed to send message")],
        failure := some .StorageFailure }

/-! ## Roster payload shape (server.js lines 146-156)

What `socket.emit('activeUsers', Array.from(activeUsers.values()))` puts on
the wire: each element serialises the stored object literal, fields in
declaration order. -/

/-- The JSON object one `activeUsers` element serialises to: its field
names and string values, in the order of the object literal at
server.js lines 146-150. -/
def activeUserFields (u : ActiveUser) : List (String × String) :=
  [("id", u.id), ("username", u.username), ("socketId", u.socketId)]

/-- The full `activeUsers` payload for a registry state. -/
def rosterPayload (m : JsMap ActiveUser) : List (List (String × String)) :=
  (mapValues m).map activeUserFields

/-! ## Client `newMessage` handler
(src/frontend/src/utils/socket.js lines 358-384)

`if (!message || !message._id) return; if (!message.content) return;`
then `setMessages(prev => exists ? prev : [...prev, message])` where
`exists = prev.some(msg => msg._id === message._id)`.  JS falsiness of the
`_id` and `content` string fields is the empty string. -/

structure ClientMsg where
  _id : String
  content : String
deriving DecidableEq, Repr

/-- One delivery of a `newMessage` event to the client's message list. -/
def handleNewMessage (prev : List ClientMsg) (message : ClientMsg) :
    List ClientMsg :=
  if message._id == "" then prev
  else if message.content == "" then prev
  else if prev.any (fun msg => msg._id == message._id) then prev
  else prev ++ [message]

/-! ## Lemmas about the `Map` model -/

theorem mapSet_nil {α : Type} (k : String) (v : α) :
    mapSet ([] : JsMap α) k v = [(k, v)] := rfl

theorem mapSet_cons {α : Type} (k' : String) (v' : α) (rest : JsMap α)
    (k : String) (v : α) :
    mapSet ((k', v') :: rest) k v =
      if k' = k then (k', v) :: rest else (k', v') :: mapSet rest k v := rfl

theorem mapDelete_cons {α : Type} (k' : String) (v' : α) (rest : JsMap α)
    (k : String) :
    mapDelete ((k', v') :: rest) k =
      if k' = k then rest else (k', v') :: mapDelete rest k := rfl

theorem mapKeys_nil {α : Type} : mapKeys ([] : JsMap α) = [] := rfl

theorem mapKeys_cons {α : Type} (p : String × α) (m : JsMap α) :
    mapKeys (p :: m) = p.1 :: mapKeys m := rfl

theorem mapValues_nil {α : Type} : mapValues ([] : JsMap α) = [] := rfl

theorem mapValues_cons {α : Type} (p : String × α) (m : JsMap α) :
    mapValues (p :: m) = p.2 :: mapValues m := rfl

theorem mapKeys_mapSet {α : Type} (m : JsMap α) (k : String) (v : α) :
    mapKeys (mapSet m k v) =
      if k ∈ mapKeys m then mapKeys m else mapKeys m ++ [k] := by
  induction m with
  | nil => simp [mapSet_nil, mapKeys_nil, mapKeys_cons]
  | cons p rest ih =>
    obtain ⟨k', v'⟩ := p
    rw [mapSet_cons]
    by_cases hk : k' = k
    · subst hk
      rw [if_pos rfl, mapKeys_cons, mapKeys_cons]
      rw [if_pos (by rw [List.mem_cons]; exact Or.inl rfl)]
    · rw [if_neg hk, mapKeys_cons, mapKeys_cons, ih]
      by_cases hm : k ∈ mapKeys rest
      · rw [if_pos hm, if_pos (by rw [List.mem_cons]; exact Or.inr hm)]
      · rw [if_neg hm,
          if_neg (by rw [List.mem_cons]; rintro (h | h) <;>
            [exact hk h.symm; exact hm h]),
          List.cons_append]

theorem mem_mapKeys_mapSet {α : Type} (m : JsMap α) (k : String) (v : α) :
    k ∈ mapKeys (mapSet m k v) := by
  rw [mapKeys_mapSet]
  by_cases hm : k ∈ mapKeys m
  · rwa [if_pos hm]
  · rw [if_neg hm]
    exact List.mem_append_right _ (List.mem_singleton.mpr rfl)

theorem nodup_mapKeys_mapSet {α : Type} (m : JsMap α) (k : String) (v : α)
    (h : (mapKeys m).Nodup) : (mapKeys (mapSet m k v)).Nodup := by
  rw [mapKeys_mapSet]
  by_cases hm : k ∈ mapKeys m
  · rwa [if_pos hm]
  · rw [if_neg hm]
    rw [List.nodup_append]
    exact ⟨h, List.nodup_singleton k, by
      intro x hx hx'
      rw [List.mem_singleton] at hx'
      exact hm (hx' ▸ hx)⟩

theorem mapDelete_sublist {α : Type} (m : JsMap α) (k : String) :
    List.Sublist (mapDelete m k) m := by
  induction m with
  | nil => exact List.Sublist.refl _
  | cons p rest ih =>
    obtain ⟨k', v'⟩ := p
    rw [mapDelete_cons]
    by_cases hk : k' = k
    · rw [if_pos hk]
      exact List.sublist_cons_self _ _
    · rw [if_neg hk]
      exact ih.cons₂ _

theorem nodup_mapKeys_mapDelete {α : Type} (m : JsMap α) (k : String)
    (h : (mapKeys m).Nodup) : (mapKeys (mapDelete m k)).Nodup :=
  ((mapDelete_sublist m k).map Prod.fst).nodup h

theorem nodup_mapKeys_foldl (ops : List RegOp) (m : JsMap ActiveUser)
    (h : (mapKeys m).Nodup) : (mapKeys (ops.foldl applyOp m)).Nodup := by
  induction ops generalizing m with
  | nil => simpa using h
  | cons op rest ih =>
    simp only [List.foldl_cons]
    apply ih
    cases op with
    | register i u s => exact nodup_mapKeys_mapSet _ _ _ h
    | unregister i => exact nodup_mapKeys_mapDelete _ _ h

theorem nodup_mapKeys_runOps (ops : List RegOp) :
    (mapKeys (runOps ops)).Nodup :=
  nodup_mapKeys_foldl ops [] List.nodup_nil

theorem mem_of_mem_mapSet {α : Type} {m : JsMap α} {k : String} {v : α}
    {p : String × α} (h : p ∈ mapSet m k v) :
    (p.1 = k ∧ p.2 = v) ∨ p ∈ m := by
  induction m with
  | nil =>
    rw [mapSet_nil, List.mem_singleton] at h
    exact Or.inl (by rw [h]; exact ⟨rfl, rfl⟩)
  | cons q rest ih =>
    obtain ⟨k', v'⟩ := q
    rw [mapSet_cons] at h
    by_cases hk : k' = k
    · rw [if_pos hk, List.mem_cons] at h
      rcases h with h | h
      · exact Or.inl (by rw [h, hk]; exact ⟨rfl, rfl⟩)
      · exact Or.inr (List.mem_cons_of_mem _ h)
    · rw [if_neg hk, List.mem_cons] at h
      rcases h with h | h
      · exact Or.inr (h ▸ List.mem_cons_self _ _)
      · rcases ih h with h' | h'
        · exact Or.inl h'
        · exact Or.inr (List.mem_cons_of_mem _ h')

/-- Every stored value's `id` is its key: true of every registry the server
builds, since line 146 stores `{ id: socket.user.id, ... }` under the key
`socket.user.id`. -/
def idsMatch (m : JsMap ActiveUser) : Prop := ∀ p ∈ m, (p.2).id = p.1

theorem idsMatch_mapSet {m : JsMap ActiveUser} {i u s : String}
    (h : idsMatch m) : idsMatch (mapSet m i ⟨i, u, s⟩) := by
  intro p hp
  rcases mem_of_mem_mapSet hp with h' | h'
  · rw [h'.1, h'.2]
  · exact h p h'

theorem idsMatch_mapDelete {m : JsMap ActiveUser} {i : String}
    (h : idsMatch m) : idsMatch (mapDelete m i) :=
  fun p hp => h p ((mapDelete_sublist m i).mem hp)

theorem idsMatch_foldl (ops : List RegOp) (m : JsMap ActiveUser)
    (h : idsMatch m) : idsMatch (ops.foldl applyOp m) := by
  induction ops generalizing m with
  | nil => simpa using h
  | cons op rest ih =>
    simp only [List.foldl_cons]
    apply ih
    cases op with
    | register i u s => exact idsMatch_mapSet h
    | unregister i => exact idsMatch_mapDelete h

theorem idsMatch_runOps (ops : List RegOp) : idsMatch (runOps ops) :=
  idsMatch_foldl ops [] (fun p hp => absurd hp (List.not_mem_nil p))

theorem valuesIds_eq_mapKeys (m : JsMap ActiveUser) (h : idsMatch m) :
    (mapValues m).map ActiveUser.id = mapKeys m := by
  induction m with
  | nil => rfl
  | cons p rest ih =>
    obtain ⟨k', v'⟩ := p
    have hid : v'.id = k' := h (k', v') (List.mem_cons_self _ _)
    have hrest : idsMatch rest := fun q hq => h q (List.mem_cons_of_mem _ hq)
    rw [mapValues_cons, mapKeys_cons, List.map_cons, ih hrest]
    rw [show ((k', v') : String × ActiveUser).2 = v' from rfl, hid]

theorem snapshot_no_entry (m : JsMap ActiveUser) (i : String)
    (hids : idsMatch m) (hmem : i ∉ mapKeys m) :
    (mapValues m).filter (fun a => a.id == i) = [] := by
  induction m with
  | nil => rfl
  | cons p rest ih =>
    obtain ⟨k', v'⟩ := p
    have hid : v'.id = k' := hids (k', v') (List.mem_cons_self _ _)
    have hrest : idsMatch rest := fun q hq => hids q (List.mem_cons_of_mem _ hq)
    rw [mapKeys_cons, List.mem_cons] at hmem
    push_neg at hmem
    have hfalse : (v'.id == i) = false := by
      rw [hid]
      exact beq_false_of_ne (fun he => hmem.1 he.symm)
    rw [mapValues_cons, List.filter_cons, hfalse]
    simpa using ih hrest hmem.2

theorem snapshot_one_entry (m : JsMap ActiveUser) (i : String)
    (hnd : (mapKeys m).Nodup) (hids : idsMatch m) (hmem : i ∈ mapKeys m) :
    ((mapValues m).filter (fun a => a.id == i)).length = 1 := by
  induction m with
  | nil => exact absurd hmem (List.not_mem_nil i)
  | cons p rest ih =>
    obtain ⟨k', v'⟩ := p
    have hid : v'.id = k' := hids (k', v') (List.mem_cons_self _ _)
    have hrest : idsMatch rest := fun q hq => hids q (List.mem_cons_of_mem _ hq)
    rw [mapKeys_cons, List.nodup_cons] at hnd
    rw [mapKeys_cons, List.mem_cons] at hmem
    by_cases hk : k' = i
    · have hnone : (mapValues rest).filter (fun a => a.id == i) = [] :=
        snapshot_no_entry rest i hrest (hk ▸ hnd.1)
      have htrue : (v'.id == i) = true := by
        rw [hid, hk]
        exact beq_self_eq_true i
      rw [mapValues_cons, List.filter_cons, htrue]
      simp [hnone]
    · have hmem' : i ∈ mapKeys rest := by
        rcases hmem with h | h
        · exact absurd h.symm hk
        · exact h
      have hfalse : (v'.id == i) = false := by
        rw [hid]
        exact beq_false_of_ne hk
      rw [mapValues_cons, List.filter_cons, hfalse]
      simpa using ih hnd.2 hrest hmem'

theorem mapSet_replace_in_place {α : Type} (m₁ m₂ : JsMap α) (k : String)
    (old v : α) (h : k ∉ mapKeys m₁) :
    mapSet (m₁ ++ (k, old) :: m₂) k v = m₁ ++ (k, v) :: m₂ := by
  induction m₁ with
  | nil => simp [mapSet_cons]
  | cons p rest ih =>
    obtain ⟨k', v'⟩ := p
    rw [mapKeys_cons, List.mem_cons] at h
    push_neg at h
    rw [List.cons_append, mapSet_cons, if_neg (fun he => h.1 he.symm),
      ih h.2, List.cons_append]

theorem filter_eq_singleton_of_nodup (l : List String) (s : String)
    (hmem : s ∈ l) (hnd : l.Nodup) : l.filter (fun x => x == s) = [s] := by
  induction l with
  | nil => exact absurd hmem (List.not_mem_nil s)
  | cons a rest ih =>
    rw [List.nodup_cons] at hnd
    rw [List.mem_cons] at hmem
    by_cases ha : a = s
    · subst ha
      have hnone : rest.filter (fun x => x == a) = [] := by
        rw [List.filter_eq_nil_iff]
        intro x hx hbeq
        rw [beq_iff_eq] at hbeq
        exact hnd.1 (hbeq ▸ hx)
      rw [List.filter_cons]
      simp [hnone]
    · have hmem' : s ∈ rest := by
        rcases hmem with h | h
        · exact absurd h (fun he => ha he.symm)
        · exact h
      rw [List.filter_cons]
      have hfalse : (a == s) = false := beq_false_of_ne ha
      rw [hfalse]
      simpa using ih hmem' hnd.2

theorem mapGet_append_cons {α : Type} (m₁ m₂ : JsMap α) (i : String) (v : α)
    (h : i ∉ mapKeys m₁) : mapGet (m₁ ++ (i, v) :: m₂) i = some v := by
  induction m₁ with
  | nil => simp [mapGet]
  | cons p rest ih =>
    obtain ⟨k', v'⟩ := p
    rw [mapKeys_cons, List.mem_cons] at h
    push_neg at h
    have hfalse : ¬((fun p : String × α => p.1 == i) (k', v') = true) := by
      simp only [beq_iff_eq]
      exact fun he => h.1 he.symm
    rw [List.cons_append, mapGet,
      List.find?_cons_of_neg (rest ++ (i, v) :: m₂) hfalse]
    exact ih h.2

/-- Case analysis of the `sendMessage` handler: the four observable
outcomes, by content validity and the two collaborator flags. -/
theorem handleSendMessage_eq (storageOk readbackOk : Bool) (newId : String)
    (usernameOf : String → String) (user : Identity) (socketId : String)
    (st : List StoredMessage) (data : MsgPayload) (ts : Nat) :
    handleSendMessage storageOk readbackOk newId usernameOf user socketId st data ts =
      if validContent data.content then
        if storageOk then
          if readbackOk then
            { store := st ++ [⟨newId, user.id, data.content, ts⟩],
              emits := [(Target.toAll, Event.newMessage
                ⟨newId, user.id, usernameOf user.id, data.content, ts⟩)],
              failure := none }
          else
            { store := st ++ [⟨newId, user.id, data.content, ts⟩],
              emits := [(Target.toSocket socketId,
                Event.errorMsg "Failed to send message")],
              failure := some SendError.StorageFailure }
        else
          { store := st,
            emits := [(Target.toSocket socketId,
              Event.errorMsg "Failed to send message")],
            failure := some SendError.StorageFailure }
      else
        { store := st,
          emits := [(Target.toSocket socketId,
            Event.errorMsg "Failed to send message")],
          failure := some SendError.InvalidContent } := by
  cases storageOk <;> cases readbackOk <;>
    by_cases hval : validContent data.content = true <;>
      simp [handleSendMessage, messageSave, hval]

/-! ## The claims -/

/-- C1: for every sequence of register/unregister operations on the presence
registry (run from the empty `activeUsers` map), the registry holds at most
one entry per identity id (its key list has no duplicates); registering an id
that is already present replaces the existing entry rather than adding a
duplicate (the key list is unchanged when the id is present, extended by the
id otherwise); and after registering an id the roster snapshot contains
exactly one entry whose id is that id. -/
theorem registry_at_most_one_entry_per_id (ops : List RegOp) (i u s : String) :
    (mapKeys (runOps ops)).Nodup ∧
    mapKeys (runOps (ops ++ [RegOp.register i u s])) =
      (if i ∈ mapKeys (runOps ops) then mapKeys (runOps ops)
       else mapKeys (runOps ops) ++ [i]) ∧
    ((mapValues (runOps (ops ++ [RegOp.register i u s]))).filter
      (fun a => a.id == i)).length = 1 := by
  have hrun : runOps (ops ++ [RegOp.register i u s]) =
      mapSet (runOps ops) i ⟨i, u, s⟩ := by
    simp [runOps, List.foldl_append, applyOp]
  refine ⟨nodup_mapKeys_runOps ops, ?_, ?_⟩
  · rw [hrun, mapKeys_mapSet]
  · rw [hrun]
    exact snapshot_one_entry _ i
      (nodup_mapKeys_mapSet _ _ _ (nodup_mapKeys_runOps ops))
      (idsMatch_mapSet (idsMatch_runOps ops))
      (mem_mapKeys_mapSet _ _ _)

/-- C10: re-registering an identity id that is already present keeps the
entry at its original position in the roster order — the registry (and hence
the snapshot) lists the refreshed entry where the old one stood, not at the
end — while the stored username and connection handle become the new ones,
and the key order is unchanged. -/
theorem reregister_preserves_roster_position (m₁ m₂ : JsMap ActiveUser)
    (i u s : String) (old : ActiveUser) (h : i ∉ mapKeys m₁) :
    applyOp (m₁ ++ (i, old) :: m₂) (RegOp.register i u s) =
      m₁ ++ (i, ActiveUser.mk i u s) :: m₂ ∧
    mapValues (applyOp (m₁ ++ (i, old) :: m₂) (RegOp.register i u s)) =
      mapValues m₁ ++ ActiveUser.mk i u s :: mapValues m₂ ∧
    mapGet (applyOp (m₁ ++ (i, old) :: m₂) (RegOp.register i u s)) i =
      some (ActiveUser.mk i u s) ∧
    mapKeys (applyOp (m₁ ++ (i, old) :: m₂) (RegOp.register i u s)) =
      mapKeys (m₁ ++ (i, old) :: m₂) := by
  have heq : applyOp (m₁ ++ (i, old) :: m₂) (RegOp.register i u s) =
      m₁ ++ (i, ActiveUser.mk i u s) :: m₂ :=
    mapSet_replace_in_place m₁ m₂ i old _ h
  refine ⟨heq, ?_, ?_, ?_⟩
  · rw [heq]
    simp [mapValues]
  · rw [heq]
    exact mapGet_append_cons m₁ m₂ i _ h
  · rw [heq]
    simp [mapKeys]

/-- Witness for C10 at a concrete registry: re-registering `"b"` (present at
position 1) keeps it at position 1 with the refreshed username and socket. -/
theorem reregister_preserves_roster_position_witness :
    applyOp ([("a", ActiveUser.mk "a" "alice" "s1")] ++
        ("b", ActiveUser.mk "b" "bob" "s2") :: [])
      (RegOp.register "b" "bobby" "s3") =
      [("a", ActiveUser.mk "a" "alice" "s1")] ++
        ("b", ActiveUser.mk "b" "bobby" "s3") :: [] ∧
    mapValues (applyOp ([("a", ActiveUser.mk "a" "alice" "s1")] ++
        ("b", ActiveUser.mk "b" "bob" "s2") :: [])
      (RegOp.register "b" "bobby" "s3")) =
      mapValues [("a", ActiveUser.mk "a" "alice" "s1")] ++
        ActiveUser.mk "b" "bobby" "s3" :: mapValues [] ∧
    mapGet (applyOp ([("a", ActiveUser.mk "a" "alice" "s1")] ++
        ("b", ActiveUser.mk "b" "bob" "s2") :: [])
      (RegOp.register "b" "bobby" "s3")) "b" =
      some (ActiveUser.mk "b" "bobby" "s3") ∧
    mapKeys (applyOp ([("a", ActiveUser.mk "a" "alice" "s1")] ++
        ("b", ActiveUser.mk "b" "bob" "s2") :: [])
      (RegOp.register "b" "bobby" "s3")) =
      mapKeys ([("a", ActiveUser.mk "a" "alice" "s1")] ++
        ("b", ActiveUser.mk "b" "bob" "s2") :: []) :=
  reregister_preserves_roster_position _ _ "b" "bobby" "s3" _ (by decide)

/-- C5: credential verification runs before admission.  A handshake with no
(or empty, hence falsy) credential is rejected with the missing-credential
error; a handshake whose credential fails the external decode/signature/
expiry check is rejected with the invalid-credential error; in either case
the connection is never established — the registry is unchanged and nothing
is emitted (no partial admission). -/
theorem auth_failure_no_admission (verify : String → Option Identity)
    (h : Handshake) (socketId : String) (m : JsMap ActiveUser)
    (hfail : tokenPresent h.token = false ∨
      ∃ t, h.token = some t ∧ tokenPresent (some t) = true ∧ verify t = none) :
    (handleConnection verify h socketId m).outcome =
      .error (if tokenPresent h.token then AuthError.InvalidCredential
              else AuthError.MissingCredential) ∧
    (handleConnection verify h socketId m).registry = m ∧
    (handleConnection verify h socketId m).emits = [] := by
  rcases hfail with hfail | ⟨t, ht, hp, hv⟩
  · cases htok : h.token with
    | none =>
      simp [handleConnection, authMiddleware, htok, tokenPresent]
    | some t =>
      rw [htok] at hfail
      have ht' : t = "" := by
        by_contra hne
        rw [show tokenPresent (some t) = !(t == "") from rfl,
          beq_false_of_ne hne] at hfail
        simp at hfail
      subst ht'
      simp [handleConnection, authMiddleware, htok, tokenPresent]
  · have hne : ¬t = "" := by
      intro he
      rw [he] at hp
      simp [tokenPresent] at hp
    simp [handleConnection, authMiddleware, ht, hne, hv, hp]

/-- Witness for C5 at a concrete handshake carrying no credential. -/
theorem auth_failure_no_admission_witness :
    (handleConnection (fun _ => none) ⟨none⟩ "s1" []).outcome =
      .error (if tokenPresent (Handshake.mk none).token
              then AuthError.InvalidCredential
              else AuthError.MissingCredential) ∧
    (handleConnection (fun _ => none) ⟨none⟩ "s1" []).registry = [] ∧
    (handleConnection (fun _ => none) ⟨none⟩ "s1" []).emits = [] :=
  auth_failure_no_admission (fun _ => none) ⟨none⟩ "s1" [] (Or.inl rfl)

/-- C7: on every successful admission the server performs the registry
insert and then makes exactly two roster announcements: the first targeted
at the newly connected session alone (its initial roster) and the second
broadcast to all other sessions (the updated roster). -/
theorem admission_registers_then_two_announcements
    (verify : String → Option Identity) (t : String) (u : Identity)
    (socketId : String) (m : JsMap ActiveUser) (sessions : List String)
    (hne : t ≠ "") (hv : verify t = some u)
    (hs : socketId ∈ sessions) (hnd : sessions.Nodup) :
    (handleConnection verify ⟨some t⟩ socketId m).outcome = .ok u ∧
    (handleConnection verify ⟨some t⟩ socketId m).registry =
      mapSet m u.id ⟨u.id, u.username, socketId⟩ ∧
    (handleConnection verify ⟨some t⟩ socketId m).emits =
      [(Target.toSocket socketId, Event.activeUsers
          (mapValues (mapSet m u.id ⟨u.id, u.username, socketId⟩))),
       (Target.broadcastFrom socketId, Event.activeUsers
          (mapValues (mapSet m u.id ⟨u.id, u.username, socketId⟩)))] ∧
    deliversTo sessions (Target.toSocket socketId) = [socketId] ∧
    deliversTo sessions (Target.broadcastFrom socketId) =
      sessions.filter (fun x => !(x == socketId)) := by
  refine ⟨?_, ?_, ?_, ?_, rfl⟩
  · simp [handleConnection, authMiddleware, hne, hv]
  · simp [handleConnection, authMiddleware, hne, hv, onConnection]
  · simp [handleConnection, authMiddleware, hne, hv, onConnection]
  · exact filter_eq_singleton_of_nodup sessions socketId hs hnd

/-- Witness for C7: user `alice` admitted with a valid token while sessions
`s1` (hers) and `s2` are active. -/
theorem admission_registers_then_two_announcements_witness :
    (handleConnection
        (fun tok => if tok == "tok1" then some (Identity.mk "u1" "alice") else none)
        ⟨some "tok1"⟩ "s1" []).outcome = .ok (Identity.mk "u1" "alice") ∧
    (handleConnection
        (fun tok => if tok == "tok1" then some (Identity.mk "u1" "alice") else none)
        ⟨some "tok1"⟩ "s1" []).registry =
      mapSet [] "u1" ⟨"u1", "alice", "s1"⟩ ∧
    (handleConnection
        (fun tok => if tok == "tok1" then some (Identity.mk "u1" "alice") else none)
        ⟨some "tok1"⟩ "s1" []).emits =
      [(Target.toSocket "s1", Event.activeUsers
          (mapValues (mapSet [] "u1" ⟨"u1", "alice", "s1"⟩))),
       (Target.broadcastFrom "s1", Event.activeUsers
          (mapValues (mapSet [] "u1" ⟨"u1", "alice", "s1"⟩)))] ∧
    deliversTo ["s1", "s2"] (Target.toSocket "s1") = ["s1"] ∧
    deliversTo ["s1", "s2"] (Target.broadcastFrom "s1") =
      ["s1", "s2"].filter (fun x => !(x == "s1")) :=
  admission_registers_then_two_announcements
    (fun tok => if tok == "tok1" then some (Identity.mk "u1" "alice") else none)
    "tok1" (Identity.mk "u1" "alice") "s1" [] ["s1", "s2"]
    (by decide) (by decide) (by decide) (by decide)

/-- C2: a `sendMessage` submission whose content is empty, whitespace-only,
or longer than 1000 code units fails with `SendError.InvalidContent`
(spec-modelled schema validation inside `save()`), the store is untouched
(no persistence call succeeds or writes), and the only emission is the
error event to the sender's own socket — no broadcast. -/
theorem invalid_content_no_persist_no_broadcast
    (storageOk readbackOk : Bool) (newId : String)
    (usernameOf : String → String) (user : Identity) (socketId : String)
    (st : List StoredMessage) (data : MsgPayload) (ts : Nat)
    (hbad : data.content.data.all Char.isWhitespace = true ∨
      data.content.length > 1000) :
    (handleSendMessage storageOk readbackOk newId usernameOf user socketId
        st data ts).failure = some SendError.InvalidContent ∧
    (handleSendMessage storageOk readbackOk newId usernameOf user socketId
        st data ts).store = st ∧
    (handleSendMessage storageOk readbackOk newId usernameOf user socketId
        st data ts).emits =
      [(Target.toSocket socketId, Event.errorMsg "Failed to send message")] := by
  have hval : validContent data.content = false := by
    rcases hbad with hbad | hbad
    · simp [validContent, hbad]
    · have hlen : decide (data.content.length ≤ 1000) = false := by
        simp only [decide_eq_false_iff_not]
        omega
      simp [validContent, hlen]
  refine ⟨?_, ?_, ?_⟩ <;> simp [handleSendMessage, messageSave, hval]

/-- Witness for C2 at the concrete empty submission. -/
theorem invalid_content_no_persist_no_broadcast_witness :
    (handleSendMessage true true "m1" (fun _ => "alice")
        (Identity.mk "u1" "alice") "s1" [] (MsgPayload.mk "" none) 0).failure =
      some SendError.InvalidContent ∧
    (handleSendMessage true true "m1" (fun _ => "alice")
        (Identity.mk "u1" "alice") "s1" [] (MsgPayload.mk "" none) 0).store = [] ∧
    (handleSendMessage true true "m1" (fun _ => "alice")
        (Identity.mk "u1" "alice") "s1" [] (MsgPayload.mk "" none) 0).emits =
      [(Target.toSocket "s1", Event.errorMsg "Failed to send message")] :=
  invalid_content_no_persist_no_broadcast true true "m1" (fun _ => "alice")
    (Identity.mk "u1" "alice") "s1" [] (MsgPayload.mk "" none) 0
    (Or.inl (by decide))

/-- C3: a `sendMessage` submission with valid content whose persistence
(durable write and populated read-back) succeeds appends exactly one record
to the store and makes exactly one `newMessage` emission, addressed to all
sessions; `deliversTo` sends an all-targeted emission to every currently
active session, the sender's included. -/
theorem valid_send_one_record_one_broadcast (newId : String)
    (usernameOf : String → String) (user : Identity) (socketId : String)
    (st : List StoredMessage) (data : MsgPayload) (ts : Nat)
    (sessions : List String)
    (hvalid : validContent data.content = true) :
    (handleSendMessage true true newId usernameOf user socketId
        st data ts).store = st ++ [⟨newId, user.id, data.content, ts⟩] ∧
    (handleSendMessage true true newId usernameOf user socketId
        st data ts).emits =
      [(Target.toAll, Event.newMessage
        ⟨newId, user.id, usernameOf user.id, data.content, ts⟩)] ∧
    (handleSendMessage true true newId usernameOf user socketId
        st data ts).failure = none ∧
    deliversTo sessions Target.toAll = sessions := by
  refine ⟨?_, ?_, ?_, rfl⟩ <;> simp [handleSendMessage, messageSave, hvalid]

/-- Witness for C3 at the concrete submission `"hi"` from `bob`. -/
theorem valid_send_one_record_one_broadcast_witness :
    (handleSendMessage true true "m1" (fun _ => "bob")
        (Identity.mk "u2" "bob") "s2" [] (MsgPayload.mk "hi" none) 5).store =
      [] ++ [⟨"m1", "u2", "hi", 5⟩] ∧
    (handleSendMessage true true "m1" (fun _ => "bob")
        (Identity.mk "u2" "bob") "s2" [] (MsgPayload.mk "hi" none) 5).emits =
      [(Target.toAll, Event.newMessage ⟨"m1", "u2", "bob", "hi", 5⟩)] ∧
    (handleSendMessage true true "m1" (fun _ => "bob")
        (Identity.mk "u2" "bob") "s2" [] (MsgPayload.mk "hi" none) 5).failure =
      none ∧
    deliversTo ["s1", "s2"] Target.toAll = ["s1", "s2"] :=
  valid_send_one_record_one_broadcast "m1" (fun _ => "bob")
    (Identity.mk "u2" "bob") "s2" [] (MsgPayload.mk "hi" none) 5 ["s1", "s2"]
    (by decide)

/-- C4: when the persistence step fails (the durable write or the populate
read-back), no `newMessage` broadcast is emitted — the only emission is the
error event addressed to the originating socket, whose delivery set never
contains any session but the sender's — and the failure is caught (the
handler still returns a result, modelling that the process does not
crash). -/
theorem persistence_failure_error_to_sender_only
    (storageOk readbackOk : Bool) (newId : String)
    (usernameOf : String → String) (user : Identity) (socketId : String)
    (st : List StoredMessage) (data : MsgPayload) (ts : Nat)
    (sessions : List String)
    (hfail : storageOk = false ∨ readbackOk = false) :
    (handleSendMessage storageOk readbackOk newId usernameOf user socketId
        st data ts).emits =
      [(Target.toSocket socketId, Event.errorMsg "Failed to send message")] ∧
    (handleSendMessage storageOk readbackOk newId usernameOf user socketId
        st data ts).failure.isSome = true ∧
    (∀ x ∈ deliversTo sessions (Target.toSocket socketId), x = socketId) := by
  have hdeliv : ∀ x ∈ deliversTo sessions (Target.toSocket socketId),
      x = socketId := by
    intro x hx
    have hmem := List.of_mem_filter
      (show x ∈ sessions.filter (fun y => y == socketId) from hx)
    rwa [beq_iff_eq] at hmem
  rw [handleSendMessage_eq]
  split_ifs with h1 h2 h3
  · exfalso
    rcases hfail with hf | hf
    · rw [hf] at h2
      exact Bool.false_ne_true h2
    · rw [hf] at h3
      exact Bool.false_ne_true h3
  · exact ⟨rfl, rfl, hdeliv⟩
  · exact ⟨rfl, rfl, hdeliv⟩
  · exact ⟨rfl, rfl, hdeliv⟩

/-- Witness for C4 with a failing durable write on a valid submission. -/
theorem persistence_failure_error_to_sender_only_witness :
    (handleSendMessage false true "m1" (fun _ => "bob")
        (Identity.mk "u2" "bob") "s2" [] (MsgPayload.mk "hi" none) 5).emits =
      [(Target.toSocket "s2", Event.errorMsg "Failed to send message")] ∧
    (handleSendMessage false true "m1" (fun _ => "bob")
        (Identity.mk "u2" "bob") "s2" [] (MsgPayload.mk "hi" none) 5).failure.isSome
      = true ∧
    (∀ x ∈ deliversTo ["s1", "s2"] (Target.toSocket "s2"), x = "s2") :=
  persistence_failure_error_to_sender_only false true "m1" (fun _ => "bob")
    (Identity.mk "u2" "bob") "s2" [] (MsgPayload.mk "hi" none) 5 ["s1", "s2"]
    (Or.inl rfl)

/-- C6: the recorded and broadcast sender is always the session's
authenticated identity — two submissions from the same session whose
payloads differ only in the client-supplied `sender` field produce
identical results, every record the handler adds to the store carries the
authenticated id as sender, and every `newMessage` emission it makes
carries the authenticated id as the broadcast sender. -/
theorem sender_is_authenticated_identity
    (storageOk readbackOk : Bool) (newId : String)
    (usernameOf : String → String) (user : Identity) (socketId : String)
    (st : List StoredMessage) (data1 data2 : MsgPayload) (ts : Nat)
    (hc : data1.content = data2.content) :
    handleSendMessage storageOk readbackOk newId usernameOf user socketId
        st data1 ts =
      handleSendMessage storageOk readbackOk newId usernameOf user socketId
        st data2 ts ∧
    (∀ r ∈ (handleSendMessage storageOk readbackOk newId usernameOf user
        socketId st data1 ts).store, r ∈ st ∨ r.sender = user.id) ∧
    (∀ p ∈ (handleSendMessage storageOk readbackOk newId usernameOf user
        socketId st data1 ts).emits,
      ∀ pm, p.2 = Event.newMessage pm → pm.senderId = user.id) := by
  refine ⟨?_, ?_, ?_⟩
  · rw [handleSendMessage_eq, handleSendMessage_eq, hc]
  · intro r hr
    rw [handleSendMessage_eq] at hr
    split_ifs at hr with h1 h2 h3
    · simp only [SendResult.mk.injEq] at hr ⊢
      rw [List.mem_append, List.mem_singleton] at hr
      rcases hr with hr | hr
      · exact Or.inl hr
      · exact Or.inr (by rw [hr])
    · rw [List.mem_append, List.mem_singleton] at hr
      rcases hr with hr | hr
      · exact Or.inl hr
      · exact Or.inr (by rw [hr])
    · exact Or.inl hr
    · exact Or.inl hr
  · intro p hp pm hpm
    rw [handleSendMessage_eq] at hp
    split_ifs at hp with h1 h2 h3
    · rw [List.mem_singleton] at hp
      rw [hp] at hpm
      simp only [Event.newMessage.injEq] at hpm
      rw [← hpm]
    · rw [List.mem_singleton] at hp
      rw [hp] at hpm
      exact absurd hpm (by simp)
    · rw [List.mem_singleton] at hp
      rw [hp] at hpm
      exact absurd hpm (by simp)
    · rw [List.mem_singleton] at hp
      rw [hp] at hpm
      exact absurd hpm (by simp)

/-- Witness for C6: two payloads with content `"hi"`, one carrying a forged
client-supplied sender. -/
theorem sender_is_authenticated_identity_witness :
    handleSendMessage true true "m1" (fun _ => "bob")
        (Identity.mk "u2" "bob") "s2" []
        (MsgPayload.mk "hi" none) 5 =
      handleSendMessage true true "m1" (fun _ => "bob")
        (Identity.mk "u2" "bob") "s2" []
        (MsgPayload.mk "hi" (some "mallory")) 5 ∧
    (∀ r ∈ (handleSendMessage true true "m1" (fun _ => "bob")
        (Identity.mk "u2" "bob") "s2" []
        (MsgPayload.mk "hi" none) 5).store, r ∈ ([] : List StoredMessage) ∨
          r.sender = (Identity.mk "u2" "bob").id) ∧
    (∀ p ∈ (handleSendMessage true true "m1" (fun _ => "bob")
        (Identity.mk "u2" "bob") "s2" []
        (MsgPayload.mk "hi" none) 5).emits,
      ∀ pm, p.2 = Event.newMessage pm →
        pm.senderId = (Identity.mk "u2" "bob").id) :=
  sender_is_authenticated_identity true true "m1" (fun _ => "bob")
    (Identity.mk "u2" "bob") "s2" [] (MsgPayload.mk "hi" none)
    (MsgPayload.mk "hi" (some "mallory")) 5 rfl

/-- C8 counterexample: the roster record the server emits for a concretely
admitted user serialises to an object with field names
`id`, `username`, `socketId` — not the claimed shape `{id, username}`. -/
theorem roster_record_shape_counterexample :
    (handleConnection
        (fun tok => if tok == "tok1" then some (Identity.mk "u1" "alice") else none)
        ⟨some "tok1"⟩ "s1" []).emits =
      [(Target.toSocket "s1",
        Event.activeUsers [ActiveUser.mk "u1" "alice" "s1"]),
       (Target.broadcastFrom "s1",
        Event.activeUsers [ActiveUser.mk "u1" "alice" "s1"])] ∧
    rosterPayload [("u1", ActiveUser.mk "u1" "alice" "s1")] =
      [[("id", "u1"), ("username", "alice"), ("socketId", "s1")]] ∧
    [("id", "u1"), ("username", "alice"), ("socketId", "s1")].map Prod.fst ≠
      ["id", "username"] :=
  ⟨by decide, rfl, by decide⟩

/-- C8 (amended): every roster payload the registry yields is the ordered
sequence of records of shape `{id, username, socketId}` — the two specified
fields plus the connection's socket id — for the currently present
identities, in the registry's insertion order (the sequence of record ids
equals the key sequence). -/
theorem roster_payload_fields_amended (ops : List RegOp)
    (rec : List (String × String))
    (hrec : rec ∈ rosterPayload (runOps ops)) :
    rec.map Prod.fst = ["id", "username", "socketId"] ∧
    (mapValues (runOps ops)).map ActiveUser.id = mapKeys (runOps ops) ∧
    rosterPayload (runOps ops) =
      (runOps ops).map (fun p =>
        [("id", (p.2).id), ("username", (p.2).username),
         ("socketId", (p.2).socketId)]) := by
  refine ⟨?_, valuesIds_eq_mapKeys _ (idsMatch_runOps ops), ?_⟩
  · rw [rosterPayload] at hrec
    obtain ⟨u, hu, hrec⟩ := List.mem_map.mp hrec
    rw [← hrec]
    rfl
  · rw [rosterPayload, mapValues, List.map_map]
    rfl

/-- Witness for the amended C8 at a concrete one-registration run. -/
theorem roster_payload_fields_amended_witness :
    [("id", "u1"), ("username", "alice"), ("socketId", "s1")] ∈
      rosterPayload (runOps [RegOp.register "u1" "alice" "s1"]) ∧
    ([("id", "u1"), ("username", "alice"), ("socketId", "s1")].map Prod.fst =
      ["id", "username", "socketId"] ∧
    (mapValues (runOps [RegOp.register "u1" "alice" "s1"])).map ActiveUser.id =
      mapKeys (runOps [RegOp.register "u1" "alice" "s1"]) ∧
    rosterPayload (runOps [RegOp.register "u1" "alice" "s1"]) =
      (runOps [RegOp.register "u1" "alice" "s1"]).map (fun p =>
        [("id", (p.2).id), ("username", (p.2).username),
         ("socketId", (p.2).socketId)])) :=
  ⟨by decide, roster_payload_fields_amended [RegOp.register "u1" "alice" "s1"]
    [("id", "u1"), ("username", "alice"), ("socketId", "s1")] (by decide)⟩

/-- C9: the client's `newMessage` handler is idempotent — delivering the
same message event twice leaves the message list exactly as delivering it
once does, the duplicate being ignored because a message with the same
`_id` is already present (and invalid deliveries are ignored both times). -/
theorem newMessage_handler_idempotent (prev : List ClientMsg)
    (message : ClientMsg) :
    handleNewMessage (handleNewMessage prev message) message =
      handleNewMessage prev message := by
  by_cases hid : (message._id == "") = true
  · simp [handleNewMessage, hid]
  · by_cases hc : (message.content == "") = true
    · simp [handleNewMessage, hid, hc]
    · by_cases hex : (prev.any (fun msg => msg._id == message._id)) = true
      · simp [handleNewMessage, hid, hc, hex]
      · simp [handleNewMessage, hid, hc, hex, List.any_append]

end Tubonge
